import Mathlib

/-!
Verification development for the TOGA pipeline (toga.py and
modules/classify_chains.py).

The Python code is embedded shallowly:

* a pandas dataframe becomes a `List` of row structures, and the successive
  dataframe filters become `List.filter` calls in the same order as the
  source;
* the two XGBoost models are external artifacts loaded with joblib, so
  `predict_proba ∘ feature-selection` is abstracted as a function from a
  feature row to a rational prediction;
* pandas float columns are exact rationals except where IEEE-754 special
  values matter (the derived-feature divisions), which use an explicit
  `PFloat` type with `nan` / `posInf` / `negInf`;
* the per-gene dictionary of chain-class lists built by the classification
  loop becomes a function `String → GeneClasses` updated by a left fold over
  the concatenated result rows, mirroring the loop body line by line.
-/

namespace Toga

/-- One row of the chain feature table read by `classify_chains`
(columns of `chain_results_df.tsv`; additional columns that neither the
filters nor the models consume are omitted, and the model-only columns
`gl_exo`, `loc_exo`, `flank_cov` are kept so that a model is a function of
the row). -/
structure ChainGeneRow where
  gene : String
  chain : Nat
  synt : Int
  exon_cover : ℚ
  ex_fract : ℚ
  intr_cover : ℚ
  intr_fract : ℚ
  chain_len : ℚ
  ex_num : Int
  cds_qlen : ℚ
  gl_exo : ℚ
  loc_exo : ℚ
  flank_cov : ℚ
deriving DecidableEq, Repr

/-- The (gene, chain) key of a feature row. -/
def rowPair (r : ChainGeneRow) : String × Nat := (r.gene, r.chain)

/-- One row of the raw model-output table (`overall_result`,
classify_chains.py lines 148-152): gene, chain, pred. -/
structure ScoreRow where
  gene : String
  chain : Nat
  pred : ℚ
deriving DecidableEq, Repr

/-- The (gene, chain) key of a score row. -/
def scorePair (s : ScoreRow) : String × Nat := (s.gene, s.chain)

/-- The four per-gene chain-class lists of the output table
(`gene_class_chains[gene]`, classify_chains.py line 164). -/
structure GeneClasses where
  orth : List Nat
  para : List Nat
  trans : List Nat
  ppgenes : List Nat
deriving DecidableEq, Repr

/-! ### IEEE-754 special values for the derived-feature divisions

pandas column division follows IEEE-754: `x / 0` is `+inf` for `x > 0`,
`-inf` for `x < 0`, and `NaN` for `x = 0`.  `DataFrame.fillna` replaces
`NaN` (only) with the given value; infinities are left untouched. -/

/-- A pandas float cell: an exact rational or an IEEE-754 special value. -/
inductive PFloat where
  | val : ℚ → PFloat
  | posInf : PFloat
  | negInf : PFloat
  | nan : PFloat
deriving DecidableEq, Repr

/-- IEEE-754 division of two finite column values, as pandas performs it
for `df_final["exon_cover"] / df_final["ex_fract"]` (classify_chains.py
lines 105 and 108). -/
def ieeeDiv (a b : ℚ) : PFloat :=
  if b = 0 then
    if a = 0 then PFloat.nan
    else if 0 < a then PFloat.posInf
    else PFloat.negInf
  else PFloat.val (a / b)

/-- Embedding of `df_final.fillna(0.0)` (classify_chains.py line 111) on a
single cell: `NaN` becomes `0.0`, every other value is unchanged. -/
def fillna0 : PFloat → PFloat
  | PFloat.nan => PFloat.val 0
  | x => x

/-- The derived `exon_perc` column after `fillna` (classify_chains.py
lines 105 and 111): `exon_cover / ex_fract` with NaN replaced by 0.0. -/
def exonPerc (r : ChainGeneRow) : PFloat :=
  fillna0 (ieeeDiv r.exon_cover r.ex_fract)

/-- The derived `intr_perc` column after `fillna` (classify_chains.py
lines 108 and 111): `intr_cover / intr_fract` with NaN replaced by 0.0. -/
def intrPerc (r : ChainGeneRow) : PFloat :=
  fillna0 (ieeeDiv r.intr_cover r.intr_fract)

/-! ### The classify_chains pipeline (classify_chains.py lines 60-206) -/

/-- Processed-pseudogene test (classify_chains.py lines 72-74):
`synt == 1 ∧ cds_qlen > 0.95 ∧ ex_num > 1`. -/
def isProcPseudogene (r : ChainGeneRow) : Bool :=
  r.synt == 1 && decide ((0.95 : ℚ) < r.cds_qlen) && decide (1 < r.ex_num)

/-- Per-gene processed-pseudogene chains (`gene_to_pp_genes`,
classify_chains.py lines 78-83): the chains of that gene's qualifying rows,
in table order. -/
def geneToPPGenes (df : List ChainGeneRow) (g : String) : List Nat :=
  (((df.filter isProcPseudogene).filter (fun r => r.gene == g)).map (fun r => r.chain))

/-- The working table after `df.drop(p_pseudogenes)`
(classify_chains.py line 85). -/
def dropPP (df : List ChainGeneRow) : List ChainGeneRow :=
  df.filter (fun r => !(isProcPseudogene r))

/-- The trans-chain rows (classify_chains.py lines 89-90): among rows that
survived the pseudogene drop, those with `exon_cover == 0` and then
`synt > 1`. -/
def transLines (df : List ChainGeneRow) : List ChainGeneRow :=
  ((dropPP df).filter (fun r => r.exon_cover == 0)).filter (fun r => decide (1 < r.synt))

/-- The scored working table `df_final` (classify_chains.py lines 94-103):
after the pseudogene drop, keep `exon_cover > 0`, then `synt > 0`. -/
def scoredDf (df : List ChainGeneRow) : List ChainGeneRow :=
  ((dropPP df).filter (fun r => decide (0 < r.exon_cover))).filter
    (fun r => decide (0 < r.synt))

/-- The single-exon split `df_se` (classify_chains.py lines 116-122):
rows with `ex_num == 1` (their `single_exon` column is set to 1). -/
def dfSe (df : List ChainGeneRow) : List ChainGeneRow :=
  (scoredDf df).filter (fun r => r.ex_num == 1)

/-- The multi-exon split `df_me` (classify_chains.py lines 117-123):
rows with `ex_num != 1` (their `single_exon` column is set to 0). -/
def dfMe (df : List ChainGeneRow) : List ChainGeneRow :=
  (scoredDf df).filter (fun r => !(r.ex_num == 1))

/-- The concatenated result table `overall_result`
(classify_chains.py lines 135-152): single-exon predictions, then
multi-exon predictions, then the trans rows with the sentinel pred −1.
`seModel` and `meModel` stand for `predict_proba` of the two loaded
XGBoost models composed with the feature-column selection. -/
def overallResult (seModel meModel : ChainGeneRow → ℚ)
    (df : List ChainGeneRow) : List ScoreRow :=
  (dfSe df).map (fun r => { gene := r.gene, chain := r.chain, pred := seModel r })
    ++ (dfMe df).map (fun r => { gene := r.gene, chain := r.chain, pred := meModel r })
    ++ (transLines df).map (fun r => { gene := r.gene, chain := r.chain, pred := -1 })

/-- One iteration body of the classification loop for the row's own gene
(classify_chains.py lines 166-179): append the chain to TRANS, PARA or
ORTH according to `pred`, then overwrite P_PGENES with the gene's
pseudogene chains when that list is non-empty. -/
def classStepG (thr : ℚ) (pp : List Nat) (c : GeneClasses) (s : ScoreRow) : GeneClasses :=
  let c1 :=
    if s.pred = -1 then { c with trans := c.trans ++ [s.chain] }
    else if s.pred < thr then { c with para := c.para ++ [s.chain] }
    else { c with orth := c.orth ++ [s.chain] }
  if (pp.isEmpty : Bool) then c1 else { c1 with ppgenes := pp }

/-- One iteration of the classification loop on the whole per-gene
dictionary: only the entry of the row's gene changes. -/
def classStep (thr : ℚ) (ppOf : String → List Nat)
    (m : String → GeneClasses) (s : ScoreRow) : String → GeneClasses :=
  fun g => if g = s.gene then classStepG thr (ppOf s.gene) (m g) s else m g

/-- Every dictionary entry starts as four empty lists
(classify_chains.py line 164). -/
def initClasses : String → GeneClasses :=
  fun _ => { orth := [], para := [], trans := [], ppgenes := [] }

/-- The per-gene dictionary `gene_class_chains` after the classification
loop (classify_chains.py lines 161-181), as a function from gene id. -/
def buildClasses (thr : ℚ) (ppOf : String → List Nat)
    (overall : List ScoreRow) : String → GeneClasses :=
  overall.foldl (classStep thr ppOf) initClasses

/-- The genes of the result table (`genes = set(overall_result["gene"])`,
classify_chains.py line 162), kept as a duplicate-free list. -/
def resultGenes (overall : List ScoreRow) : List String :=
  (overall.map (fun s => s.gene)).dedup

/-- The genes of the input feature table (`init_genes_set`,
classify_chains.py line 67). -/
def initGenes (df : List ChainGeneRow) : List String :=
  (df.map (fun r => r.gene)).dedup

/-- The rows of the output class table (classify_chains.py lines 184-197):
one entry per result gene, carrying that gene's four class lists. -/
def classTable (df : List ChainGeneRow) (seModel meModel : ChainGeneRow → ℚ)
    (thr : ℚ) : List (String × GeneClasses) :=
  (resultGenes (overallResult seModel meModel df)).map
    (fun g => (g, buildClasses thr (geneToPPGenes df) (overallResult seModel meModel df) g))

/-- The rejected-genes log (classify_chains.py lines 200-206): input genes
absent from the result genes, each with the fixed reason string. -/
def rejectedLines (df : List ChainGeneRow)
    (seModel meModel : ChainGeneRow → ℚ) : List (String × String) :=
  ((initGenes df).filter
      (fun g => !((resultGenes (overallResult seModel meModel df)).contains g))).map
    (fun g => (g, "No classifiable chains"))

/-! ### toga.py: teardown, job bucketing, and the classification call site -/

/-- A view of the file system at teardown time: which registered paths
currently exist as files and which as directories. -/
structure FSView where
  isFile : String → Bool
  isDir : String → Bool

/-- The observable outcome of a process termination: what was written to
the error stream, which registered temp paths were deleted (a directory
deletion stands for its recursive removal by `shutil.rmtree`), and the
process exit status. -/
structure ExitOutcome where
  stderrLines : List String
  removed : List String
  exitCode : Nat
deriving Repr

/-- Embedding of `Toga.die` (toga.py lines 311-318): print the message and
the exit-code line, remove each registered temp path that exists as a file
(`os.remove`) or directory (`shutil.rmtree`) unless `keep_temp`, then
`sys.exit(rc)`. -/
def die (keep_temp : Bool) (temp_files : List String) (fs : FSView)
    (msg : String) (rc : Nat) : ExitOutcome :=
  { stderrLines := [msg, "Program finished with exit code " ++ toString rc]
  , removed := temp_files.filter
      (fun t => (fs.isFile t || fs.isDir t) && !keep_temp)
  , exitCode := rc }

/-- Embedding of the empty-directory failure inside `Toga.__merge_dir`
(toga.py lines 797-799): `sys.exit(f"Error! {dir_name} is empty")`.
`sys.exit` with a string argument prints the string to stderr and
terminates the process with status 1; no temp-file cleanup runs. -/
def mergeDirEmptyExit (dirName : String) : ExitOutcome :=
  { stderrLines := ["Error! " ++ dirName ++ " is empty"]
  , removed := []
  , exitCode := 1 }

/-- The fatal termination paths of the pipeline controller, read off
toga.py: every fatal error goes through a `self.die(msg)` call with the
default `rc=1` (lines 91, 187, 223, 226, 243, 252, 257, 264, 286, 305,
388, 400, 407, 415, 424, 436, 557; the `rc=0` calls at 487, 584 and 595
are success or early-stop exits, not failures), except the
empty-directory check in
`__merge_dir` (line 799), which calls `sys.exit` directly. -/
inductive FatalPath where
  | dieCall (msg : String) : FatalPath
  | mergeDirEmpty (dirName : String) : FatalPath
deriving DecidableEq

/-- The outcome of each fatal termination path, given the controller state
(`keep_temp` flag and the `temp_files` registered so far) and the file
system. -/
def runFatal (keep_temp : Bool) (temp_files : List String) (fs : FSView) :
    FatalPath → ExitOutcome
  | FatalPath.dieCall msg => die keep_temp temp_files fs msg 1
  | FatalPath.mergeDirEmpty d => mergeDirEmptyExit d

/-- Matching of one grep-pattern character against one subject character:
in the pattern `_{b}.bdb` the dot is a basic-regular-expression wildcard
matching any character; the remaining characters are literals. -/
def patChar (p c : Char) : Bool :=
  p == '.' || p == c

/-- The grep pattern matches at the start of the subject. -/
def patAtStart : List Char → List Char → Bool
  | [], _ => true
  | _ :: _, [] => false
  | p :: ps, c :: cs => patChar p c && patAtStart ps cs

/-- The grep pattern matches somewhere in the subject line. -/
def patFind : List Char → List Char → Bool
  | pat, [] => patAtStart pat []
  | pat, c :: t => patAtStart pat (c :: t) || patFind pat t

/-- The per-bucket grep pattern `_{b}.bdb`
(toga.py line 661, `grep_bucket_template`). -/
def bucketTag (b : Nat) : List Char :=
  '_' :: (Nat.repr b).data ++ ('.' :: "bdb".data)

/-- Whether a job-list line is selected for bucket `b`
(`cat joblist | grep _{b}.bdb`, toga.py lines 661 and 680-682). -/
def lineMatchesBucket (line : String) (b : Nat) : Bool :=
  patFind (bucketTag b) line.data

/-- The job lines extracted for bucket `b` (toga.py lines 680-689): the
lines of the combined job list matching the bucket's tag, in order.  When
this is empty the source skips the bucket with a warning. -/
def bucketTasks (joblist : List String) (b : Nat) : List String :=
  joblist.filter (fun l => lineMatchesBucket l b)

/-- All job lines submitted across the declared buckets in the
multi-bucket case (`self.cesar_buckets != "0"`): the concatenation of the
per-bucket selections. -/
def bucketUnion (joblist : List String) (buckets : List Nat) : List String :=
  (buckets.map (bucketTasks joblist)).flatten

/-- The command-line options of toga.py relevant to chain filtering and
classification (parse_args, lines 846-848 and 871-874). -/
structure TogaArgs where
  min_score : Int
  no_chain_filter : Bool
  keep_temp : Bool
deriving DecidableEq, Repr

/-- The default decision threshold of `classify_chains`
(classify_chains.py line 62: `annot_threshold=0.5`). -/
def defaultAnnotThreshold : ℚ := 0.5

/-- The score threshold handed to the external `chain_score_filter`
binary when the chain file is prepared (toga.py lines 89-103): it is
`args.min_score` unless `--no_chain_filter` suppresses filtering. -/
def chainFilterScoreArg (a : TogaArgs) : Option Int :=
  if a.no_chain_filter then none else some a.min_score

/-- The classification stage as the controller invokes it
(`Toga.__classify_chains`, toga.py lines 581-582): `classify_chains` is
called with table, output, the two models, `rejected` and `raw_out`, and
no `annot_threshold` argument, so the default applies.  No field of the
parsed arguments is consulted. -/
def togaClassifyChainsStage (_a : TogaArgs) (df : List ChainGeneRow)
    (seModel meModel : ChainGeneRow → ℚ) : List (String × GeneClasses) :=
  classTable df seModel meModel defaultAnnotThreshold

/-! ### Concrete rows for evaluating the pipeline -/

/-- A processed-pseudogene row (the spec scenario: synt=1, exon_cover=100,
ex_fract=100, cds_qlen=0.97, ex_num=2). -/
def ppRowEx : ChainGeneRow :=
  { gene := "G1", chain := 11, synt := 1, exon_cover := 100, ex_fract := 100,
    intr_cover := 0, intr_fract := 0, chain_len := 1000, ex_num := 2,
    cds_qlen := 0.97, gl_exo := 0, loc_exo := 0, flank_cov := 0 }

/-- A single-exon row that reaches the single-exon model. -/
def seRowEx : ChainGeneRow :=
  { gene := "G1", chain := 12, synt := 2, exon_cover := 50, ex_fract := 100,
    intr_cover := 10, intr_fract := 20, chain_len := 500, ex_num := 1,
    cds_qlen := 0.5, gl_exo := 0, loc_exo := 0, flank_cov := 0 }

/-- A trans-chain row (the spec scenario: synt=5, exon_cover=0). -/
def transRowEx : ChainGeneRow :=
  { gene := "G2", chain := 21, synt := 5, exon_cover := 0, ex_fract := 100,
    intr_cover := 0, intr_fract := 10, chain_len := 700, ex_num := 3,
    cds_qlen := 0.1, gl_exo := 0, loc_exo := 0, flank_cov := 0 }

/-- A scored single-exon row whose `ex_fract` is zero. -/
def zeroFractRowEx : ChainGeneRow :=
  { gene := "G3", chain := 31, synt := 1, exon_cover := 1, ex_fract := 0,
    intr_cover := 0, intr_fract := 0, chain_len := 10, ex_num := 1,
    cds_qlen := 0.5, gl_exo := 0, loc_exo := 0, flank_cov := 0 }

/-- A model producing the same probability on every row. -/
def constModel (q : ℚ) : ChainGeneRow → ℚ := fun _ => q

/-- A file-system view in which every path is an existing file. -/
def fsAllFiles : FSView :=
  { isFile := fun _ => true, isDir := fun _ => false }

/-! ### Characterization of the classification loop -/

/-- Branch condition under which the loop appends a chain to ORTH. -/
def orthCondB (thr : ℚ) (s : ScoreRow) : Bool :=
  !(s.pred == -1) && !(decide (s.pred < thr))

/-- Branch condition under which the loop appends a chain to PARA. -/
def paraCondB (thr : ℚ) (s : ScoreRow) : Bool :=
  !(s.pred == -1) && decide (s.pred < thr)

/-- Branch condition under which the loop appends a chain to TRANS. -/
def transCondB (s : ScoreRow) : Bool :=
  s.pred == -1

theorem foldl_classStep_apply (thr : ℚ) (ppOf : String → List Nat)
    (overall : List ScoreRow) (m : String → GeneClasses) (g : String) :
    (overall.foldl (classStep thr ppOf) m) g
      = (overall.filter (fun s => s.gene == g)).foldl (classStepG thr (ppOf g)) (m g) := by
  induction overall generalizing m with
  | nil => rfl
  | cons s t ih =>
    by_cases h : s.gene = g
    · rw [List.foldl_cons, List.filter_cons_of_pos (by simp [h]), List.foldl_cons, ih]
      congr 1
      simp [classStep, h]
    · rw [List.foldl_cons, List.filter_cons_of_neg (by simp [h]), ih]
      congr 1
      simp only [classStep]
      rw [if_neg (fun hg : g = s.gene => h hg.symm)]

theorem foldl_classStepG_orth (thr : ℚ) (pp : List Nat)
    (l : List ScoreRow) (c : GeneClasses) :
    (l.foldl (classStepG thr pp) c).orth
      = c.orth ++ (l.filter (orthCondB thr)).map (fun s => s.chain) := by
  induction l generalizing c with
  | nil => simp
  | cons s t ih =>
    rw [List.foldl_cons, ih]
    by_cases h1 : s.pred = -1
    · simp [classStepG, orthCondB, h1, apply_ite GeneClasses.orth]
    · by_cases h2 : s.pred < thr
      · simp [classStepG, orthCondB, h1, h2, apply_ite GeneClasses.orth]
      · simp [classStepG, orthCondB, h1, h2, apply_ite GeneClasses.orth]

theorem foldl_classStepG_para (thr : ℚ) (pp : List Nat)
    (l : List ScoreRow) (c : GeneClasses) :
    (l.foldl (classStepG thr pp) c).para
      = c.para ++ (l.filter (paraCondB thr)).map (fun s => s.chain) := by
  induction l generalizing c with
  | nil => simp
  | cons s t ih =>
    rw [List.foldl_cons, ih]
    by_cases h1 : s.pred = -1
    · simp [classStepG, paraCondB, h1, apply_ite GeneClasses.para]
    · by_cases h2 : s.pred < thr
      · simp [classStepG, paraCondB, h1, h2, apply_ite GeneClasses.para]
      · simp [classStepG, paraCondB, h1, h2, apply_ite GeneClasses.para]

theorem foldl_classStepG_trans (thr : ℚ) (pp : List Nat)
    (l : List ScoreRow) (c : GeneClasses) :
    (l.foldl (classStepG thr pp) c).trans
      = c.trans ++ (l.filter transCondB).map (fun s => s.chain) := by
  induction l generalizing c with
  | nil => simp
  | cons s t ih =>
    rw [List.foldl_cons, ih]
    by_cases h1 : s.pred = -1
    · simp [classStepG, transCondB, h1, apply_ite GeneClasses.trans]
    · by_cases h2 : s.pred < thr
      · simp [classStepG, transCondB, h1, h2, apply_ite GeneClasses.trans]
      · simp [classStepG, transCondB, h1, h2, apply_ite GeneClasses.trans]

theorem foldl_classStepG_ppgenes (thr : ℚ) (pp : List Nat)
    (l : List ScoreRow) (c : GeneClasses) :
    (l.foldl (classStepG thr pp) c).ppgenes
      = if l.isEmpty || pp.isEmpty then c.ppgenes else pp := by
  induction l generalizing c with
  | nil => simp
  | cons s t ih =>
    rw [List.foldl_cons, ih]
    cases hp : pp.isEmpty
    · cases ht : t.isEmpty <;>
        simp [classStepG, hp, ht, apply_ite GeneClasses.ppgenes]
    · cases ht : t.isEmpty <;>
        simp [classStepG, hp, ht, apply_ite GeneClasses.ppgenes]

theorem buildClasses_orth (thr : ℚ) (ppOf : String → List Nat)
    (overall : List ScoreRow) (g : String) :
    (buildClasses thr ppOf overall g).orth
      = ((overall.filter (fun s => s.gene == g)).filter (orthCondB thr)).map
          (fun s => s.chain) := by
  unfold buildClasses
  rw [foldl_classStep_apply, foldl_classStepG_orth]
  simp [initClasses]

theorem buildClasses_para (thr : ℚ) (ppOf : String → List Nat)
    (overall : List ScoreRow) (g : String) :
    (buildClasses thr ppOf overall g).para
      = ((overall.filter (fun s => s.gene == g)).filter (paraCondB thr)).map
          (fun s => s.chain) := by
  unfold buildClasses
  rw [foldl_classStep_apply, foldl_classStepG_para]
  simp [initClasses]

theorem buildClasses_trans (thr : ℚ) (ppOf : String → List Nat)
    (overall : List ScoreRow) (g : String) :
    (buildClasses thr ppOf overall g).trans
      = ((overall.filter (fun s => s.gene == g)).filter transCondB).map
          (fun s => s.chain) := by
  unfold buildClasses
  rw [foldl_classStep_apply, foldl_classStepG_trans]
  simp [initClasses]

theorem buildClasses_ppgenes (thr : ℚ) (ppOf : String → List Nat)
    (overall : List ScoreRow) (g : String) :
    (buildClasses thr ppOf overall g).ppgenes
      = if (overall.filter (fun s => s.gene == g)).isEmpty || (ppOf g).isEmpty
        then [] else ppOf g := by
  unfold buildClasses
  rw [foldl_classStep_apply, foldl_classStepG_ppgenes]
  simp [initClasses]

/-! ### Membership facts about the pipeline's intermediate tables -/

theorem mem_dropPP {df : List ChainGeneRow} {r : ChainGeneRow} :
    r ∈ dropPP df ↔ r ∈ df ∧ isProcPseudogene r = false := by
  simp [dropPP, List.mem_filter]

theorem mem_transLines {df : List ChainGeneRow} {r : ChainGeneRow} :
    r ∈ transLines df
      ↔ r ∈ df ∧ isProcPseudogene r = false ∧ r.exon_cover = 0 ∧ 1 < r.synt := by
  simp only [transLines, List.mem_filter, mem_dropPP, decide_eq_true_eq, beq_iff_eq,
    and_assoc]

theorem mem_scoredDf {df : List ChainGeneRow} {r : ChainGeneRow} :
    r ∈ scoredDf df
      ↔ r ∈ df ∧ isProcPseudogene r = false ∧ 0 < r.exon_cover ∧ 0 < r.synt := by
  simp only [scoredDf, List.mem_filter, mem_dropPP, decide_eq_true_eq, and_assoc]

theorem mem_dfSe {df : List ChainGeneRow} {r : ChainGeneRow} :
    r ∈ dfSe df ↔ r ∈ scoredDf df ∧ r.ex_num = 1 := by
  simp [dfSe, List.mem_filter]

theorem mem_dfMe {df : List ChainGeneRow} {r : ChainGeneRow} :
    r ∈ dfMe df ↔ r ∈ scoredDf df ∧ ¬(r.ex_num = 1) := by
  simp [dfMe, List.mem_filter]

theorem mem_overallResult {seModel meModel : ChainGeneRow → ℚ}
    {df : List ChainGeneRow} {s : ScoreRow} :
    s ∈ overallResult seModel meModel df
      ↔ (∃ r ∈ dfSe df, s = { gene := r.gene, chain := r.chain, pred := seModel r })
        ∨ (∃ r ∈ dfMe df, s = { gene := r.gene, chain := r.chain, pred := meModel r })
        ∨ (∃ r ∈ transLines df, s = { gene := r.gene, chain := r.chain, pred := -1 }) := by
  simp only [overallResult, List.mem_append, List.mem_map]
  constructor
  · rintro ((⟨r, hr, he⟩ | ⟨r, hr, he⟩) | ⟨r, hr, he⟩)
    · exact Or.inl ⟨r, hr, he.symm⟩
    · exact Or.inr (Or.inl ⟨r, hr, he.symm⟩)
    · exact Or.inr (Or.inr ⟨r, hr, he.symm⟩)
  · rintro (⟨r, hr, he⟩ | ⟨r, hr, he⟩ | ⟨r, hr, he⟩)
    · exact Or.inl (Or.inl ⟨r, hr, he.symm⟩)
    · exact Or.inl (Or.inr ⟨r, hr, he.symm⟩)
    · exact Or.inr ⟨r, hr, he.symm⟩

/-- Every result row originates from a non-pseudogene input row with the
same gene and chain. -/
theorem overall_source {seModel meModel : ChainGeneRow → ℚ}
    {df : List ChainGeneRow} {s : ScoreRow}
    (h : s ∈ overallResult seModel meModel df) :
    ∃ r ∈ df, isProcPseudogene r = false ∧ r.gene = s.gene ∧ r.chain = s.chain := by
  rcases mem_overallResult.mp h with ⟨r, hr, he⟩ | ⟨r, hr, he⟩ | ⟨r, hr, he⟩
  · rcases mem_dfSe.mp hr with ⟨hsc, _⟩
    rcases mem_scoredDf.mp hsc with ⟨hdf, hpp, _⟩
    exact ⟨r, hdf, hpp, by simp [he]⟩
  · rcases mem_dfMe.mp hr with ⟨hsc, _⟩
    rcases mem_scoredDf.mp hsc with ⟨hdf, hpp, _⟩
    exact ⟨r, hdf, hpp, by simp [he]⟩
  · rcases mem_transLines.mp hr with ⟨hdf, hpp, _⟩
    exact ⟨r, hdf, hpp, by simp [he]⟩

theorem dropPP_sublist (df : List ChainGeneRow) : List.Sublist (dropPP df) df :=
  List.filter_sublist df

theorem transLines_sublist (df : List ChainGeneRow) : List.Sublist (transLines df) df :=
  ((List.filter_sublist _).trans (List.filter_sublist _)).trans (dropPP_sublist df)

theorem scoredDf_sublist (df : List ChainGeneRow) : List.Sublist (scoredDf df) df :=
  ((List.filter_sublist _).trans (List.filter_sublist _)).trans (dropPP_sublist df)

theorem dfSe_sublist (df : List ChainGeneRow) : List.Sublist (dfSe df) df :=
  (List.filter_sublist _).trans (scoredDf_sublist df)

theorem dfMe_sublist (df : List ChainGeneRow) : List.Sublist (dfMe df) df :=
  (List.filter_sublist _).trans (scoredDf_sublist df)

/-- When the feature table has no duplicate (gene, chain) pair, equal
pairs identify equal rows. -/
theorem rowPair_inj {df : List ChainGeneRow} (h : (df.map rowPair).Nodup) :
    ∀ r1 ∈ df, ∀ r2 ∈ df, rowPair r1 = rowPair r2 → r1 = r2 :=
  fun _ h1 _ h2 he => List.inj_on_of_nodup_map h h1 h2 he

/-- A duplicate-free (gene, chain) input yields a duplicate-free
(gene, chain) result table. -/
theorem overall_pairs_nodup {seModel meModel : ChainGeneRow → ℚ}
    {df : List ChainGeneRow} (h : (df.map rowPair).Nodup) :
    ((overallResult seModel meModel df).map scorePair).Nodup := by
  have hres : (overallResult seModel meModel df).map scorePair
      = (dfSe df).map rowPair
        ++ ((dfMe df).map rowPair ++ (transLines df).map rowPair) := by
    simp only [overallResult, List.map_append, List.map_map, List.append_assoc]
    rfl
  have hnse : ((dfSe df).map rowPair).Nodup :=
    h.sublist ((dfSe_sublist df).map rowPair)
  have hnme : ((dfMe df).map rowPair).Nodup :=
    h.sublist ((dfMe_sublist df).map rowPair)
  have hntr : ((transLines df).map rowPair).Nodup :=
    h.sublist ((transLines_sublist df).map rowPair)
  have hinj := rowPair_inj h
  have dsm : List.Disjoint ((dfSe df).map rowPair) ((dfMe df).map rowPair) := by
    intro p hp1 hp2
    rcases List.mem_map.mp hp1 with ⟨r1, hr1, he1⟩
    rcases List.mem_map.mp hp2 with ⟨r2, hr2, he2⟩
    have : r1 = r2 :=
      hinj r1 (dfSe_sublist df |>.subset hr1) r2 (dfMe_sublist df |>.subset hr2)
        (he1.trans he2.symm)
    rcases mem_dfSe.mp hr1 with ⟨_, hx1⟩
    rcases mem_dfMe.mp hr2 with ⟨_, hx2⟩
    exact hx2 (this ▸ hx1)
  have dst : List.Disjoint ((dfSe df).map rowPair) ((transLines df).map rowPair) := by
    intro p hp1 hp2
    rcases List.mem_map.mp hp1 with ⟨r1, hr1, he1⟩
    rcases List.mem_map.mp hp2 with ⟨r2, hr2, he2⟩
    have : r1 = r2 :=
      hinj r1 (dfSe_sublist df |>.subset hr1) r2 (transLines_sublist df |>.subset hr2)
        (he1.trans he2.symm)
    rcases mem_scoredDf.mp (mem_dfSe.mp hr1).1 with ⟨_, _, hx1, _⟩
    rcases mem_transLines.mp hr2 with ⟨_, _, hx2, _⟩
    rw [this, hx2] at hx1
    exact lt_irrefl 0 hx1
  have dmt : List.Disjoint ((dfMe df).map rowPair) ((transLines df).map rowPair) := by
    intro p hp1 hp2
    rcases List.mem_map.mp hp1 with ⟨r1, hr1, he1⟩
    rcases List.mem_map.mp hp2 with ⟨r2, hr2, he2⟩
    have : r1 = r2 :=
      hinj r1 (dfMe_sublist df |>.subset hr1) r2 (transLines_sublist df |>.subset hr2)
        (he1.trans he2.symm)
    rcases mem_scoredDf.mp (mem_dfMe.mp hr1).1 with ⟨_, _, hx1, _⟩
    rcases mem_transLines.mp hr2 with ⟨_, _, hx2, _⟩
    rw [this, hx2] at hx1
    exact lt_irrefl 0 hx1
  rw [hres, List.nodup_append, List.nodup_append]
  refine ⟨hnse, ⟨hnme, hntr, dmt⟩, ?_⟩
  intro p hp1 hp2
  rcases List.mem_append.mp hp2 with hp2 | hp2
  · exact dsm hp1 hp2
  · exact dst hp1 hp2

/-- With a duplicate-free (gene, chain) input, equal (gene, chain) keys
identify equal result rows. -/
theorem scoreRow_inj {seModel meModel : ChainGeneRow → ℚ}
    {df : List ChainGeneRow} (h : (df.map rowPair).Nodup) :
    ∀ s1 ∈ overallResult seModel meModel df,
      ∀ s2 ∈ overallResult seModel meModel df,
        s1.gene = s2.gene → s1.chain = s2.chain → s1 = s2 := by
  intro s1 h1 s2 h2 hg hc
  exact List.inj_on_of_nodup_map (overall_pairs_nodup h) h1 h2
    (by simp [scorePair, hg, hc])

theorem mem_resultGenes {overall : List ScoreRow} {g : String} :
    g ∈ resultGenes overall ↔ ∃ s ∈ overall, s.gene = g := by
  simp [resultGenes, List.mem_dedup, List.mem_map]

theorem mem_initGenes {df : List ChainGeneRow} {g : String} :
    g ∈ initGenes df ↔ ∃ r ∈ df, r.gene = g := by
  simp [initGenes, List.mem_dedup, List.mem_map]

/-! ### Claim C2 -/

/-- C2, counterexample.  The claim says that in feature derivation any
undefined value from a division by zero is replaced with 0.0, so a row
with `ex_fract = 0` yields 0.0.  On the code, a row surviving the hard
filter has `exon_cover > 0`, so `exon_cover / 0` is IEEE `+inf`, which
`fillna(0.0)` does not replace: the concrete surviving row below gets
`exon_perc = +inf`, not 0.0. -/
theorem c2_counterexample :
    zeroFractRowEx ∈ scoredDf [zeroFractRowEx]
      ∧ zeroFractRowEx.ex_fract = 0
      ∧ exonPerc zeroFractRowEx = PFloat.posInf
      ∧ exonPerc zeroFractRowEx ≠ PFloat.val 0 := by
  refine ⟨?_, rfl, ?_, ?_⟩
  · norm_num [scoredDf, dropPP, isProcPseudogene, zeroFractRowEx]
  · norm_num [exonPerc, ieeeDiv, fillna0, zeroFractRowEx]
  · norm_num [exonPerc, ieeeDiv, fillna0, zeroFractRowEx]
    decide

/-- C2, amended.  For every row surviving the hard filter, `exon_perc`
equals `exon_cover / ex_fract` and `intr_perc` equals
`intr_cover / intr_fract` under IEEE-754 conventions; a NaN (a 0/0
division, e.g. `intr_cover = intr_fract = 0`) is replaced with 0.0, but a
row with `ex_fract = 0` yields `+inf` (its `exon_cover` is positive after
the hard filter), not 0.0 — and no error is raised either way. -/
theorem c2_amended (df : List ChainGeneRow) (r : ChainGeneRow)
    (h : r ∈ scoredDf df) :
    (r.ex_fract ≠ 0 → exonPerc r = PFloat.val (r.exon_cover / r.ex_fract))
    ∧ (r.ex_fract = 0 → exonPerc r = PFloat.posInf)
    ∧ (r.intr_fract ≠ 0 → intrPerc r = PFloat.val (r.intr_cover / r.intr_fract))
    ∧ (r.intr_fract = 0 → r.intr_cover = 0 → intrPerc r = PFloat.val 0) := by
  rcases mem_scoredDf.mp h with ⟨-, -, hec, -⟩
  refine ⟨fun h1 => ?_, fun h1 => ?_, fun h1 => ?_, fun h1 h2 => ?_⟩
  · simp [exonPerc, ieeeDiv, h1, fillna0]
  · simp [exonPerc, ieeeDiv, h1, ne_of_gt hec, hec, fillna0]
  · simp [intrPerc, ieeeDiv, h1, fillna0]
  · simp [intrPerc, ieeeDiv, h1, h2, fillna0]

/-- C2, witness for the amended theorem at a concrete surviving row. -/
theorem c2_witness :
    zeroFractRowEx ∈ scoredDf [zeroFractRowEx]
      ∧ exonPerc zeroFractRowEx = PFloat.posInf
      ∧ intrPerc zeroFractRowEx = PFloat.val 0 := by
  have hm : zeroFractRowEx ∈ scoredDf [zeroFractRowEx] := by
    norm_num [scoredDf, dropPP, isProcPseudogene, zeroFractRowEx]
  exact ⟨hm, (c2_amended [zeroFractRowEx] zeroFractRowEx hm).2.1 rfl,
    (c2_amended [zeroFractRowEx] zeroFractRowEx hm).2.2.2 rfl rfl⟩

/-! ### Claim C4 -/

/-- C4, confirmed.  Every row that survives the pseudogene removal and has
`exon_cover = 0` and `synt > 1` is a trans row: it produces the raw-score
row (gene, chain, −1), its chain lands in the gene's TRANS list, and the
row reaches neither the single-exon nor the multi-exon model split. -/
theorem c4_trans_chain (df : List ChainGeneRow) (seModel meModel : ChainGeneRow → ℚ)
    (thr : ℚ) (r : ChainGeneRow) (hr : r ∈ df)
    (hnp : isProcPseudogene r = false) (hec : r.exon_cover = 0) (hs : 1 < r.synt) :
    r ∈ transLines df
    ∧ ({ gene := r.gene, chain := r.chain, pred := -1 } : ScoreRow)
        ∈ overallResult seModel meModel df
    ∧ r.chain ∈ (buildClasses thr (geneToPPGenes df)
        (overallResult seModel meModel df) r.gene).trans
    ∧ r ∉ dfSe df ∧ r ∉ dfMe df := by
  have ht : r ∈ transLines df := mem_transLines.mpr ⟨hr, hnp, hec, hs⟩
  have ho : ({ gene := r.gene, chain := r.chain, pred := -1 } : ScoreRow)
      ∈ overallResult seModel meModel df :=
    mem_overallResult.mpr (Or.inr (Or.inr ⟨r, ht, rfl⟩))
  refine ⟨ht, ho, ?_, fun hse => ?_, fun hme => ?_⟩
  · rw [buildClasses_trans]
    refine List.mem_map.mpr ⟨{ gene := r.gene, chain := r.chain, pred := -1 }, ?_, rfl⟩
    exact List.mem_filter.mpr ⟨List.mem_filter.mpr ⟨ho, by simp⟩, by simp [transCondB]⟩
  · rcases mem_scoredDf.mp (mem_dfSe.mp hse).1 with ⟨-, -, hx, -⟩
    rw [hec] at hx
    exact lt_irrefl 0 hx
  · rcases mem_scoredDf.mp (mem_dfMe.mp hme).1 with ⟨-, -, hx, -⟩
    rw [hec] at hx
    exact lt_irrefl 0 hx

/-- C4, witness: the spec's trans-row scenario (gene G2, chain C2=21,
synt=5, exon_cover=0) evaluated concretely. -/
theorem c4_witness :
    transRowEx ∈ transLines [transRowEx]
    ∧ ({ gene := "G2", chain := 21, pred := -1 } : ScoreRow)
        ∈ overallResult (constModel (1/2)) (constModel (1/2)) [transRowEx]
    ∧ (21 : Nat) ∈ (buildClasses (1/2) (geneToPPGenes [transRowEx])
        (overallResult (constModel (1/2)) (constModel (1/2)) [transRowEx]) "G2").trans
    ∧ transRowEx ∉ dfSe [transRowEx] ∧ transRowEx ∉ dfMe [transRowEx] :=
  c4_trans_chain [transRowEx] (constModel (1/2)) (constModel (1/2)) (1/2) transRowEx
    (List.mem_singleton.mpr rfl) (by norm_num [isProcPseudogene, transRowEx]) rfl
    (by norm_num [transRowEx])

/-! ### Claim C5 -/

/-- C5, confirmed.  For every result row that is not the trans sentinel,
the loop classifies its chain PARA when the prediction is strictly below
the threshold and ORTH when it is greater than or equal (equality
included). -/
theorem c5_threshold_decision (df : List ChainGeneRow)
    (seModel meModel : ChainGeneRow → ℚ) (thr : ℚ) (s : ScoreRow)
    (hs : s ∈ overallResult seModel meModel df) (hne : s.pred ≠ -1) :
    (s.pred < thr → s.chain ∈ (buildClasses thr (geneToPPGenes df)
        (overallResult seModel meModel df) s.gene).para)
    ∧ (thr ≤ s.pred → s.chain ∈ (buildClasses thr (geneToPPGenes df)
        (overallResult seModel meModel df) s.gene).orth) := by
  constructor <;> intro h
  · rw [buildClasses_para]
    refine List.mem_map.mpr ⟨s, ?_, rfl⟩
    exact List.mem_filter.mpr ⟨List.mem_filter.mpr ⟨hs, by simp⟩,
      by simp [paraCondB, hne, h]⟩
  · rw [buildClasses_orth]
    refine List.mem_map.mpr ⟨s, ?_, rfl⟩
    exact List.mem_filter.mpr ⟨List.mem_filter.mpr ⟨hs, by simp⟩,
      by simp [orthCondB, hne, not_lt.mpr h]⟩

/-- C5, witness: the spec's boundary scenario — a single-exon row whose
model output is exactly the default threshold 0.5 is classified ORTH. -/
theorem c5_witness :
    (1 : ℚ)/2 ≤ (1 : ℚ)/2
    ∧ (12 : Nat) ∈ (buildClasses (1/2) (geneToPPGenes [seRowEx])
        (overallResult (constModel (1/2)) (constModel (1/2)) [seRowEx]) "G1").orth :=
  ⟨le_refl _,
    (c5_threshold_decision [seRowEx] (constModel (1/2)) (constModel (1/2)) (1/2)
        { gene := "G1", chain := 12, pred := 1/2 }
        (by norm_num [overallResult, dfSe, dfMe, transLines, scoredDf, dropPP,
          isProcPseudogene, constModel, seRowEx])
        (by norm_num)).2 (le_refl _)⟩

/-! ### More helpers: tracing list membership back to input rows -/

/-- A chain in one of the threshold-decided lists comes from a result row
of that gene satisfying the corresponding branch condition. -/
theorem mem_classList_source {overall : List ScoreRow} {g : String} {c : Nat}
    {P : ScoreRow → Bool}
    (h : c ∈ ((overall.filter (fun s => s.gene == g)).filter P).map
      (fun s => s.chain)) :
    ∃ s ∈ overall, s.gene = g ∧ s.chain = c ∧ P s = true := by
  rcases List.mem_map.mp h with ⟨s, hs, hc⟩
  rcases List.mem_filter.mp hs with ⟨hs1, hP⟩
  rcases List.mem_filter.mp hs1 with ⟨hs0, hgeq⟩
  exact ⟨s, hs0, by simpa using hgeq, hc, hP⟩

/-- A chain in a gene's P_PGENES list comes from a qualifying
processed-pseudogene input row of that gene. -/
theorem mem_ppgenes_source {df : List ChainGeneRow} {thr : ℚ}
    {overall : List ScoreRow} {g : String} {c : Nat}
    (h : c ∈ (buildClasses thr (geneToPPGenes df) overall g).ppgenes) :
    ∃ rp ∈ df, isProcPseudogene rp = true ∧ rp.gene = g ∧ rp.chain = c := by
  rw [buildClasses_ppgenes] at h
  by_cases hcond : ((overall.filter (fun s => s.gene == g)).isEmpty
      || (geneToPPGenes df g).isEmpty) = true
  · rw [if_pos hcond] at h
    exact absurd h (List.not_mem_nil c)
  · rw [if_neg hcond] at h
    rcases List.mem_map.mp h with ⟨rp, hrp, hc⟩
    rcases List.mem_filter.mp hrp with ⟨hrp1, hgq⟩
    rcases List.mem_filter.mp hrp1 with ⟨hdf, hppq⟩
    exact ⟨rp, hdf, hppq, by simpa using hgq, hc⟩

/-- With a duplicate-free (gene, chain) input, no result row can share its
(gene, chain) key with a processed-pseudogene row: the pseudogene row was
dropped before the result table was built. -/
theorem pp_and_result_clash {seModel meModel : ChainGeneRow → ℚ}
    {df : List ChainGeneRow} (hnd : (df.map rowPair).Nodup)
    {rp : ChainGeneRow} (hrp : rp ∈ df) (hpp : isProcPseudogene rp = true)
    {s : ScoreRow} (hs : s ∈ overallResult seModel meModel df)
    (hg : s.gene = rp.gene) (hc : s.chain = rp.chain) : False := by
  rcases overall_source hs with ⟨r, hr, hnp, hg2, hc2⟩
  have he : r = rp :=
    rowPair_inj hnd r hr rp hrp (by simp [rowPair, hg2.trans hg, hc2.trans hc])
  rw [he, hpp] at hnp
  cases hnp

/-! ### Claim C1 -/

/-- C1, counterexample.  The claim asserts that the class-table row of a
pseudogene row's gene lists the chain in P_PGENES even when every row of
the gene qualifies as a pseudogene row.  On the code, such a gene has no
result row at all, so it gets no class-table row: with the single
qualifying row below the class table is empty and the gene goes to the
rejected log instead. -/
theorem c1_counterexample :
    isProcPseudogene ppRowEx = true
    ∧ ppRowEx ∈ [ppRowEx]
    ∧ classTable [ppRowEx] (constModel (1/2)) (constModel (1/2)) (1/2) = []
    ∧ rejectedLines [ppRowEx] (constModel (1/2)) (constModel (1/2))
        = [("G1", "No classifiable chains")] := by
  refine ⟨by norm_num [isProcPseudogene, ppRowEx], List.mem_singleton.mpr rfl, ?_, ?_⟩
  · norm_num [classTable, resultGenes, overallResult, dfSe, dfMe, transLines,
      scoredDf, dropPP, isProcPseudogene, ppRowEx]
  · norm_num [rejectedLines, initGenes, resultGenes, overallResult, dfSe, dfMe,
      transLines, scoredDf, dropPP, isProcPseudogene, ppRowEx]

/-- C1, amended.  A qualifying pseudogene row is removed before scoring
and before trans extraction; provided its gene still appears in the
output class table (that is, the gene has at least one scored or trans
row), the gene's table row lists the chain under P_PGENES, and — when the
input table has no duplicate (gene, chain) row — no other column lists
that chain.  (When every row of the gene qualifies, the gene is absent
from the class table and is logged as rejected instead.) -/
theorem c1_amended (df : List ChainGeneRow) (seModel meModel : ChainGeneRow → ℚ)
    (thr : ℚ) (r : ChainGeneRow) (hr : r ∈ df) (hpp : isProcPseudogene r = true)
    (hg : r.gene ∈ resultGenes (overallResult seModel meModel df)) :
    r ∉ scoredDf df
    ∧ r ∉ transLines df
    ∧ (r.gene, buildClasses thr (geneToPPGenes df)
        (overallResult seModel meModel df) r.gene)
        ∈ classTable df seModel meModel thr
    ∧ r.chain ∈ (buildClasses thr (geneToPPGenes df)
        (overallResult seModel meModel df) r.gene).ppgenes
    ∧ ((df.map rowPair).Nodup →
        r.chain ∉ (buildClasses thr (geneToPPGenes df)
          (overallResult seModel meModel df) r.gene).orth
        ∧ r.chain ∉ (buildClasses thr (geneToPPGenes df)
          (overallResult seModel meModel df) r.gene).para
        ∧ r.chain ∉ (buildClasses thr (geneToPPGenes df)
          (overallResult seModel meModel df) r.gene).trans) := by
  refine ⟨fun hsc => ?_, fun htr => ?_, List.mem_map.mpr ⟨r.gene, hg, rfl⟩, ?_, fun hnd => ?_⟩
  · rcases mem_scoredDf.mp hsc with ⟨-, hnp, -⟩
    rw [hpp] at hnp
    cases hnp
  · rcases mem_transLines.mp htr with ⟨-, hnp, -⟩
    rw [hpp] at hnp
    cases hnp
  · rw [buildClasses_ppgenes]
    have hmem : r.chain ∈ geneToPPGenes df r.gene :=
      List.mem_map.mpr ⟨r, List.mem_filter.mpr
        ⟨List.mem_filter.mpr ⟨hr, hpp⟩, by simp⟩, rfl⟩
    rcases mem_resultGenes.mp hg with ⟨s, hs, hsg⟩
    have hne1 : (overallResult seModel meModel df).filter
        (fun x => x.gene == r.gene) ≠ [] :=
      List.ne_nil_of_mem (List.mem_filter.mpr ⟨hs, by simp [hsg]⟩)
    have hne2 : geneToPPGenes df r.gene ≠ [] := List.ne_nil_of_mem hmem
    rw [if_neg (by simp [List.isEmpty_iff, hne1, hne2])]
    exact hmem
  · refine ⟨fun hmem => ?_, fun hmem => ?_, fun hmem => ?_⟩
    · rw [buildClasses_orth] at hmem
      rcases mem_classList_source hmem with ⟨s, hs, hsg, hsc, -⟩
      exact pp_and_result_clash hnd hr hpp hs hsg hsc
    · rw [buildClasses_para] at hmem
      rcases mem_classList_source hmem with ⟨s, hs, hsg, hsc, -⟩
      exact pp_and_result_clash hnd hr hpp hs hsg hsc
    · rw [buildClasses_trans] at hmem
      rcases mem_classList_source hmem with ⟨s, hs, hsg, hsc, -⟩
      exact pp_and_result_clash hnd hr hpp hs hsg hsc

/-- C1, witness for the amended theorem: gene G1 has a pseudogene row
(chain 11) and a scored row (chain 12), so chain 11 is listed in
G1's P_PGENES column and in no other column. -/
theorem c1_witness :
    (11 : Nat) ∈ (buildClasses (1/2) (geneToPPGenes [ppRowEx, seRowEx])
        (overallResult (constModel (3/4)) (constModel (3/4)) [ppRowEx, seRowEx]) "G1").ppgenes
    ∧ (11 : Nat) ∉ (buildClasses (1/2) (geneToPPGenes [ppRowEx, seRowEx])
        (overallResult (constModel (3/4)) (constModel (3/4)) [ppRowEx, seRowEx]) "G1").orth := by
  have h := c1_amended [ppRowEx, seRowEx] (constModel (3/4)) (constModel (3/4))
    (1/2) ppRowEx (List.mem_cons_self _ _)
    (by norm_num [isProcPseudogene, ppRowEx])
    (by norm_num [resultGenes, overallResult, dfSe, dfMe, transLines, scoredDf,
      dropPP, isProcPseudogene, constModel, ppRowEx, seRowEx])
  exact ⟨h.2.2.2.1, (h.2.2.2.2 (by norm_num [rowPair, ppRowEx, seRowEx])).1⟩

/-! ### Claim C3 -/

/-- C3, confirmed.  Every gene of the input feature table ends up in
exactly one of the two outputs: either it has a row in the class table,
or it has a line in the rejected log carrying the fixed reason string —
never both, never neither. -/
theorem c3_gene_partition (df : List ChainGeneRow)
    (seModel meModel : ChainGeneRow → ℚ) (thr : ℚ) (g : String)
    (hg : g ∈ initGenes df) :
    ((∃ v, (g, v) ∈ classTable df seModel meModel thr)
      ∧ (g, "No classifiable chains") ∉ rejectedLines df seModel meModel)
    ∨ ((¬∃ v, (g, v) ∈ classTable df seModel meModel thr)
      ∧ (g, "No classifiable chains") ∈ rejectedLines df seModel meModel) := by
  by_cases h : g ∈ resultGenes (overallResult seModel meModel df)
  · left
    refine ⟨⟨_, List.mem_map.mpr ⟨g, h, rfl⟩⟩, fun hmem => ?_⟩
    rcases List.mem_map.mp hmem with ⟨g2, hg2, he⟩
    have hgg : g2 = g := congrArg Prod.fst he
    rw [hgg] at hg2
    rcases List.mem_filter.mp hg2 with ⟨-, hcon⟩
    simp at hcon
    exact hcon h
  · right
    refine ⟨fun hex => ?_,
      List.mem_map.mpr ⟨g, List.mem_filter.mpr ⟨hg, by simp [h]⟩, rfl⟩⟩
    rcases hex with ⟨v, hv⟩
    rcases List.mem_map.mp hv with ⟨g2, hg2, he⟩
    have hgg : g2 = g := congrArg Prod.fst he
    rw [hgg] at hg2
    exact h hg2

/-- C3, witness: a gene whose only row is a processed pseudogene row has
no class-table row and appears in the rejected log. -/
theorem c3_witness :
    ((∃ v, ("G1", v) ∈ classTable [ppRowEx] (constModel (1/2)) (constModel (1/2)) (1/2))
      ∧ ("G1", "No classifiable chains")
          ∉ rejectedLines [ppRowEx] (constModel (1/2)) (constModel (1/2)))
    ∨ ((¬∃ v, ("G1", v) ∈ classTable [ppRowEx] (constModel (1/2)) (constModel (1/2)) (1/2))
      ∧ ("G1", "No classifiable chains")
          ∈ rejectedLines [ppRowEx] (constModel (1/2)) (constModel (1/2))) :=
  c3_gene_partition [ppRowEx] (constModel (1/2)) (constModel (1/2)) (1/2) "G1"
    (by norm_num [initGenes, ppRowEx])

/-! ### Claim C8 -/

/-- C8, confirmed.  Assuming the input feature table has no duplicate
(gene, chain) row, a chain identifier appears in at most one of the four
class lists of any gene written to the output table. -/
theorem c8_chain_at_most_one_class (df : List ChainGeneRow)
    (seModel meModel : ChainGeneRow → ℚ) (thr : ℚ) (g : String) (c : Nat)
    (hnd : (df.map rowPair).Nodup)
    (_hg : g ∈ resultGenes (overallResult seModel meModel df)) :
    (c ∈ (buildClasses thr (geneToPPGenes df)
        (overallResult seModel meModel df) g).orth
      → c ∉ (buildClasses thr (geneToPPGenes df)
          (overallResult seModel meModel df) g).para
        ∧ c ∉ (buildClasses thr (geneToPPGenes df)
          (overallResult seModel meModel df) g).trans
        ∧ c ∉ (buildClasses thr (geneToPPGenes df)
          (overallResult seModel meModel df) g).ppgenes)
    ∧ (c ∈ (buildClasses thr (geneToPPGenes df)
        (overallResult seModel meModel df) g).para
      → c ∉ (buildClasses thr (geneToPPGenes df)
          (overallResult seModel meModel df) g).trans
        ∧ c ∉ (buildClasses thr (geneToPPGenes df)
          (overallResult seModel meModel df) g).ppgenes)
    ∧ (c ∈ (buildClasses thr (geneToPPGenes df)
        (overallResult seModel meModel df) g).trans
      → c ∉ (buildClasses thr (geneToPPGenes df)
          (overallResult seModel meModel df) g).ppgenes) := by
  have hpp : ∀ {P : ScoreRow → Bool},
      c ∈ ((( overallResult seModel meModel df).filter
        (fun s => s.gene == g)).filter P).map (fun s => s.chain)
      → c ∉ (buildClasses thr (geneToPPGenes df)
          (overallResult seModel meModel df) g).ppgenes := by
    intro P h1 h2
    rcases mem_classList_source h1 with ⟨s, hs, hsg, hsc, -⟩
    rcases mem_ppgenes_source h2 with ⟨rp, hdf, hppq, hgq, hcq⟩
    exact pp_and_result_clash hnd hdf hppq hs (hsg.trans hgq.symm)
      (hsc.trans hcq.symm)
  refine ⟨fun h1 => ⟨fun h2 => ?_, fun h2 => ?_, ?_⟩,
    fun h1 => ⟨fun h2 => ?_, ?_⟩, fun h1 => ?_⟩
  · rw [buildClasses_orth] at h1
    rw [buildClasses_para] at h2
    rcases mem_classList_source h1 with ⟨s1, hs1, hg1, hc1, hP1⟩
    rcases mem_classList_source h2 with ⟨s2, hs2, hg2, hc2, hP2⟩
    have he : s1 = s2 := scoreRow_inj hnd s1 hs1 s2 hs2
      (hg1.trans hg2.symm) (hc1.trans hc2.symm)
    rw [he] at hP1
    simp [orthCondB] at hP1
    simp [paraCondB] at hP2
    exact absurd hP2.2 (not_lt.mpr hP1.2)
  · rw [buildClasses_orth] at h1
    rw [buildClasses_trans] at h2
    rcases mem_classList_source h1 with ⟨s1, hs1, hg1, hc1, hP1⟩
    rcases mem_classList_source h2 with ⟨s2, hs2, hg2, hc2, hP2⟩
    have he : s1 = s2 := scoreRow_inj hnd s1 hs1 s2 hs2
      (hg1.trans hg2.symm) (hc1.trans hc2.symm)
    rw [he] at hP1
    simp [orthCondB] at hP1
    simp [transCondB] at hP2
    exact hP1.1 hP2
  · rw [buildClasses_orth] at h1
    exact hpp h1
  · rw [buildClasses_para] at h1
    rw [buildClasses_trans] at h2
    rcases mem_classList_source h1 with ⟨s1, hs1, hg1, hc1, hP1⟩
    rcases mem_classList_source h2 with ⟨s2, hs2, hg2, hc2, hP2⟩
    have he : s1 = s2 := scoreRow_inj hnd s1 hs1 s2 hs2
      (hg1.trans hg2.symm) (hc1.trans hc2.symm)
    rw [he] at hP1
    simp [paraCondB] at hP1
    simp [transCondB] at hP2
    exact hP1.1 hP2
  · rw [buildClasses_para] at h1
    exact hpp h1
  · rw [buildClasses_trans] at h1
    exact hpp h1

/-- C8, witness: for gene G1 with a pseudogene row (chain 11) and a
scored row (chain 12, prediction 3/4 ≥ 1/2), chain 12 is ORTH and in no
other list. -/
theorem c8_witness :
    (12 : Nat) ∈ (buildClasses (1/2) (geneToPPGenes [ppRowEx, seRowEx])
        (overallResult (constModel (3/4)) (constModel (3/4)) [ppRowEx, seRowEx]) "G1").orth
    ∧ (12 : Nat) ∉ (buildClasses (1/2) (geneToPPGenes [ppRowEx, seRowEx])
        (overallResult (constModel (3/4)) (constModel (3/4)) [ppRowEx, seRowEx]) "G1").para
    ∧ (12 : Nat) ∉ (buildClasses (1/2) (geneToPPGenes [ppRowEx, seRowEx])
        (overallResult (constModel (3/4)) (constModel (3/4)) [ppRowEx, seRowEx]) "G1").trans
    ∧ (12 : Nat) ∉ (buildClasses (1/2) (geneToPPGenes [ppRowEx, seRowEx])
        (overallResult (constModel (3/4)) (constModel (3/4)) [ppRowEx, seRowEx]) "G1").ppgenes := by
  have horth : (12 : Nat) ∈ (buildClasses (1/2) (geneToPPGenes [ppRowEx, seRowEx])
      (overallResult (constModel (3/4)) (constModel (3/4)) [ppRowEx, seRowEx]) "G1").orth := by
    rw [buildClasses_orth]
    norm_num [overallResult, dfSe, dfMe, transLines, scoredDf, dropPP,
      isProcPseudogene, constModel, orthCondB, ppRowEx, seRowEx]
  have h := c8_chain_at_most_one_class [ppRowEx, seRowEx] (constModel (3/4))
    (constModel (3/4)) (1/2) "G1" 12
    (by norm_num [rowPair, ppRowEx, seRowEx])
    (by norm_num [resultGenes, overallResult, dfSe, dfMe, transLines, scoredDf,
      dropPP, isProcPseudogene, constModel, ppRowEx, seRowEx])
  exact ⟨horth, (h.1 horth).1, (h.1 horth).2.1, (h.1 horth).2.2⟩

/-! ### Claim C6 -/

theorem count_filter_eq {α : Type} [DecidableEq α] (p : α → Bool)
    (l : List α) (a : α) :
    (l.filter p).count a = if p a then l.count a else 0 := by
  cases h : p a
  · rw [if_neg (by simp [h])]
    refine List.count_eq_zero.mpr (fun hm => ?_)
    rcases List.mem_filter.mp hm with ⟨-, hp⟩
    rw [h] at hp
    cases hp
  · rw [if_pos rfl]
    exact List.count_filter h

theorem sum_ite_count {α : Type} (bs : List α) (q : α → Bool) (v : ℕ) :
    (bs.map (fun b => if q b then v else 0)).sum = (bs.filter q).length * v := by
  induction bs with
  | nil => simp
  | cons b t ih =>
    cases h : q b
    · simp [h, ih]
    · simp [h, ih, Nat.succ_mul, Nat.add_comm]

/-- C6, counterexample.  The claim asserts that whenever every declared
bucket's tag occurs somewhere in the job list, the per-bucket subsets
cover the whole job list.  On the code, a job line matching no bucket tag
is simply never selected: below, bucket 3's tag occurs in the list, yet
the line without any tag is lost from the union. -/
theorem c6_counterexample :
    "cesar x_3.bdb" ∈ ["cesar x_3.bdb", "cesar plain"]
    ∧ lineMatchesBucket "cesar x_3.bdb" 3 = true
    ∧ "cesar plain" ∈ ["cesar x_3.bdb", "cesar plain"]
    ∧ "cesar plain" ∉ bucketUnion ["cesar x_3.bdb", "cesar plain"] [3] := by
  refine ⟨by simp, by decide, by simp, by decide⟩

/-- C6, amended.  In the multi-bucket case, if every job line matches
exactly one declared bucket tag, then the concatenation of the per-bucket
selections is a permutation of the original job list: every line is kept
with its multiplicity, none is duplicated and none is lost.  (In general
a line matching no tag is dropped and a line matching several tags is
duplicated.) -/
theorem c6_amended (joblist : List String) (buckets : List Nat)
    (hone : ∀ l ∈ joblist,
      (buckets.filter (fun b => lineMatchesBucket l b)).length = 1) :
    ∀ s : String, (bucketUnion joblist buckets).count s = joblist.count s := by
  intro s
  rw [bucketUnion, List.count_flatten, List.map_map]
  have hmap : (buckets.map (List.count s ∘ bucketTasks joblist))
      = buckets.map (fun b => if lineMatchesBucket s b then joblist.count s else 0) := by
    refine List.map_congr_left (fun b _ => ?_)
    exact count_filter_eq (fun l => lineMatchesBucket l b) joblist s
  rw [hmap, sum_ite_count]
  by_cases hs : s ∈ joblist
  · rw [hone s hs, Nat.one_mul]
  · rw [List.count_eq_zero.mpr hs, Nat.mul_zero]

/-- C6, witness: two job lines, one per bucket, are fully preserved. -/
theorem c6_witness :
    (bucketUnion ["cesar a_5.bdb", "cesar b_10.bdb"] [5, 10]).count "cesar a_5.bdb"
      = (["cesar a_5.bdb", "cesar b_10.bdb"] : List String).count "cesar a_5.bdb" :=
  c6_amended ["cesar a_5.bdb", "cesar b_10.bdb"] [5, 10] (by decide) "cesar a_5.bdb"

/-! ### Claim C7 -/

/-- C7, counterexample.  The claim asserts that every fatal failure path
funnels through the teardown routine, which deletes every registered temp
artifact before exiting non-zero.  On the code, the empty-directory
failure inside `__merge_dir` calls `sys.exit` directly: it exits with
status 1 but removes nothing, even though a registered temp file exists
and retention was not requested — unlike a `die` path in the same
state. -/
theorem c7_counterexample :
    (runFatal false ["t.tmp"] fsAllFiles (FatalPath.mergeDirEmpty "rejected")).exitCode = 1
    ∧ (runFatal false ["t.tmp"] fsAllFiles (FatalPath.mergeDirEmpty "rejected")).removed = []
    ∧ fsAllFiles.isFile "t.tmp" = true
    ∧ (runFatal false ["t.tmp"] fsAllFiles (FatalPath.dieCall "Abort")).removed = ["t.tmp"] :=
  ⟨rfl, rfl, rfl, rfl⟩

/-- C7, amended.  Every fatal path that goes through `die` writes a
diagnostic, deletes exactly the registered temp artifacts that exist
(files and, recursively, directories) unless retention was requested, and
exits non-zero; the empty-directory path of `__merge_dir` also writes a
diagnostic and exits non-zero, but bypasses `die` and deletes nothing. -/
theorem c7_amended (keep_temp : Bool) (temp_files : List String) (fs : FSView)
    (msg d : String) (hkeep : keep_temp = false) :
    (runFatal keep_temp temp_files fs (FatalPath.dieCall msg)).exitCode ≠ 0
    ∧ (runFatal keep_temp temp_files fs (FatalPath.dieCall msg)).stderrLines ≠ []
    ∧ (runFatal keep_temp temp_files fs (FatalPath.dieCall msg)).removed
        = temp_files.filter (fun t => fs.isFile t || fs.isDir t)
    ∧ (runFatal keep_temp temp_files fs (FatalPath.mergeDirEmpty d)).exitCode ≠ 0
    ∧ (runFatal keep_temp temp_files fs (FatalPath.mergeDirEmpty d)).stderrLines ≠ []
    ∧ (runFatal keep_temp temp_files fs (FatalPath.mergeDirEmpty d)).removed = [] := by
  subst hkeep
  refine ⟨by simp [runFatal, die], by simp [runFatal, die], ?_,
    by simp [runFatal, mergeDirEmptyExit], by simp [runFatal, mergeDirEmptyExit], rfl⟩
  simp [runFatal, die]

/-- C7, witness for the amended theorem at a concrete state. -/
theorem c7_witness :
    (runFatal false ["a.tmp"] fsAllFiles (FatalPath.dieCall "Abort")).exitCode ≠ 0
    ∧ (runFatal false ["a.tmp"] fsAllFiles (FatalPath.dieCall "Abort")).stderrLines ≠ []
    ∧ (runFatal false ["a.tmp"] fsAllFiles (FatalPath.dieCall "Abort")).removed
        = (["a.tmp"] : List String).filter
            (fun t => fsAllFiles.isFile t || fsAllFiles.isDir t)
    ∧ (runFatal false ["a.tmp"] fsAllFiles
        (FatalPath.mergeDirEmpty "rejected")).exitCode ≠ 0
    ∧ (runFatal false ["a.tmp"] fsAllFiles
        (FatalPath.mergeDirEmpty "rejected")).stderrLines ≠ []
    ∧ (runFatal false ["a.tmp"] fsAllFiles
        (FatalPath.mergeDirEmpty "rejected")).removed = [] :=
  c7_amended false ["a.tmp"] fsAllFiles "Abort" "rejected" rfl

/-! ### Claim C9 -/

/-- C9, confirmed.  Feeding the raw-score output back into the
classification loop, restricted to the rows with pred ≠ −1 and with the
same threshold, reproduces the identical ORTH and PARA lists for every
gene.  (`classify_chains` applied to its own raw-score table can only
re-run this thresholding stage — the raw table has no feature columns to
re-score — so the loop over score rows is what a re-run repeats.) -/
theorem c9_rescore_idempotent (thr : ℚ) (pp1 pp2 : String → List Nat)
    (overall : List ScoreRow) (g : String) :
    (buildClasses thr pp2 (overall.filter (fun s => !(s.pred == -1))) g).orth
        = (buildClasses thr pp1 overall g).orth
    ∧ (buildClasses thr pp2 (overall.filter (fun s => !(s.pred == -1))) g).para
        = (buildClasses thr pp1 overall g).para := by
  constructor
  · rw [buildClasses_orth, buildClasses_orth]
    congr 1
    rw [List.filter_filter, List.filter_filter, List.filter_filter]
    apply List.filter_congr
    intro s _
    cases h : (s.pred == -1) <;> simp [orthCondB, h]
  · rw [buildClasses_para, buildClasses_para]
    congr 1
    rw [List.filter_filter, List.filter_filter, List.filter_filter]
    apply List.filter_congr
    intro s _
    cases h : (s.pred == -1) <;> simp [paraCondB, h]

/-! ### Claim C10 -/

/-- C10, confirmed.  The controller's classification stage ignores every
command-line option — in particular `--min_score` — and runs the
classifier at the default threshold, which is 0.5; `min_score` is what
the chain score pre-filter receives when filtering is not disabled. -/
theorem c10_controller_threshold (a1 a2 : TogaArgs) (df : List ChainGeneRow)
    (seModel meModel : ChainGeneRow → ℚ) :
    togaClassifyChainsStage a1 df seModel meModel
        = togaClassifyChainsStage a2 df seModel meModel
    ∧ togaClassifyChainsStage a1 df seModel meModel
        = classTable df seModel meModel (1/2)
    ∧ chainFilterScoreArg
        { min_score := a1.min_score, no_chain_filter := false,
          keep_temp := a1.keep_temp } = some a1.min_score := by
  refine ⟨rfl, ?_, rfl⟩
  have h : defaultAnnotThreshold = 1/2 := by norm_num [defaultAnnotThreshold]
  rw [togaClassifyChainsStage, h]

end Toga
